import Mathlib

/-!
Shallow embedding of the Cartoon-Avatar-Creator client (src/App.tsx,
src/types.ts, src/services/geminiService.ts) and proofs about its
generation-request / progress / history state machine.

State updates in the source are React `setState(prev => ...)` calls; each
is embedded as a pure function from the previous state to the next state.
Asynchronous flows (`handleGenerate`, `processFile`) are split into their
synchronous phases: the dispatch step, the timer ticks that may run while
the request is outstanding, and the resolution step.
-/

namespace CartoonAvatar

/-- `AvatarStyle` enum from src/types.ts (eight presets, declaration order). -/
inductive AvatarStyle where
  | PIXAR
  | VECTOR
  | ANIME
  | SKETCH
  | COMIC
  | CYBERPUNK
  | GOTHIC
  | CLAY
  deriving DecidableEq, Repr, Fintype

/-- `Object.values(AvatarStyle)` — the enum's values in declaration order. -/
def allStyles : List AvatarStyle :=
  [.PIXAR, .VECTOR, .ANIME, .SKETCH, .COMIC, .CYBERPUNK, .GOTHIC, .CLAY]

/-- `HistoryItem` record from src/types.ts. -/
structure HistoryItem where
  id : String
  originalImage : String
  generatedAvatar : String
  style : AvatarStyle
  timestamp : Nat
  deriving DecidableEq, Repr

/-- `ExtendedAppState` from src/App.tsx: `AppState` (src/types.ts) plus the
transient UI fields `isDragging`, `progressStep`, `progressPercent`.
`progressPercent` is a fraction computed by real division, embedded as `ℚ`. -/
structure ExtendedAppState where
  originalImage : Option String
  generatedAvatar : Option String
  isGenerating : Bool
  style : AvatarStyle
  error : Option String
  isDragging : Bool
  progressStep : Nat
  progressPercent : ℚ
  history : List HistoryItem
  deriving DecidableEq, Repr

/-- The `useState` initializer in src/App.tsx. -/
def initState : ExtendedAppState :=
  { originalImage := none
    generatedAvatar := none
    isGenerating := false
    style := .PIXAR
    error := none
    isDragging := false
    progressStep := 0
    progressPercent := 0
    history := [] }

/-- `PROGRESS_MESSAGES.length` in src/App.tsx (the list has 7 entries). -/
def progressMessagesLength : Nat := 7

/-- JavaScript `String.prototype.startsWith`, embedded as a character-level
prefix test. -/
def jsStartsWith (s p : String) : Bool :=
  s.data.take p.data.length == p.data

/-- The startup history-load effect (src/App.tsx lines 54-64): a successfully
parsed persisted list replaces `history` verbatim (no truncation). -/
def loadHistory (parsed : List HistoryItem) (s : ExtendedAppState) : ExtendedAppState :=
  { s with history := parsed }

/-- `processFile` (src/App.tsx lines 103-119), synchronous phase: a file whose
declared media type does not start with "image/" only sets `error`; otherwise
the state is untouched and an asynchronous read is started. The returned `Bool`
records whether the read was started. -/
def processFile (fileType : String) (s : ExtendedAppState) : ExtendedAppState × Bool :=
  if !jsStartsWith fileType "image/" then
    ({ s with error := some "请上传有效的图片文件。" }, false)
  else
    (s, true)

/-- The `reader.onloadend` callback in `processFile`: stores the decoded
data URI, clears `error` and `generatedAvatar`. -/
def fileReadComplete (dataUrl : String) (s : ExtendedAppState) : ExtendedAppState :=
  { s with originalImage := some dataUrl, error := none, generatedAvatar := none }

/-- `handleRandomStyle` (src/App.tsx lines 151-157). `Math.floor(Math.random()
* availableStyles.length)` is embedded as the index `k`; a uniform
`Math.random()` in [0,1) yields a uniform `k < availableStyles.length`. -/
def handleRandomStyle (k : Nat) (s : ExtendedAppState) : ExtendedAppState :=
  if s.isGenerating then s
  else
    let availableStyles := allStyles.filter (fun st => st != s.style)
    match availableStyles[k]? with
    | some st => { s with style := st }
    | none => s

/-- The per-style select buttons (src/App.tsx line 370): set `style` directly.
The buttons carry `disabled={state.isGenerating}`, so the click only fires
when no generation is outstanding. -/
def selectStyle (st : AvatarStyle) (s : ExtendedAppState) : ExtendedAppState :=
  if s.isGenerating then s else { s with style := st }

/-- Dispatch phase of `handleGenerate` (src/App.tsx lines 159-162): with no
`originalImage` the handler returns immediately; otherwise it marks the
request in flight and clears `error` and `generatedAvatar`. The second
component is the request handed to the Generation Client (`none` = no call). -/
def dispatchGenerate (s : ExtendedAppState) : ExtendedAppState × Option (String × AvatarStyle) :=
  match s.originalImage with
  | none => (s, none)
  | some img =>
      ({ s with isGenerating := true, error := none, generatedAvatar := none },
       some (img, s.style))

/-- Whether the generate button is disabled (src/App.tsx line 386):
`!state.originalImage || state.isGenerating`. -/
def generateButtonDisabled (s : ExtendedAppState) : Bool :=
  s.originalImage.isNone || s.isGenerating

/-- A click on the generate button: a disabled button fires no `onClick`, so
the dispatch runs only when `generateButtonDisabled` is false. -/
def clickGenerate (s : ExtendedAppState) : ExtendedAppState × Option (String × AvatarStyle) :=
  if generateButtonDisabled s then (s, none) else dispatchGenerate s

/-- The `HistoryItem` built on generation success (src/App.tsx lines 166-172):
`id` and `timestamp` both sample `Date.now()` inside the handler, embedded as
the single clock value `now`. `img` and `sty` are the closure's
`state.originalImage` and `state.style`, captured at dispatch. -/
def mkHistoryItem (img result : String) (sty : AvatarStyle) (now : Nat) : HistoryItem :=
  { id := toString now
    originalImage := img
    generatedAvatar := result
    style := sty
    timestamp := now }

/-- Success `setState` of `handleGenerate` (src/App.tsx lines 174-180),
applied to whatever state `prev` holds when the Generation Client resolves:
store the result, end the request, force progress to 100, prepend the new
item and truncate to 20 (`.slice(0, 20)`). -/
def resolveSuccess (img : String) (sty : AvatarStyle) (result : String) (now : Nat)
    (prev : ExtendedAppState) : ExtendedAppState :=
  { prev with
    generatedAvatar := some result
    isGenerating := false
    progressPercent := 100
    history := (mkHistoryItem img result sty now :: prev.history).take 20 }

/-- The fixed fallback error text in `handleGenerate`'s catch clause. -/
def generateFallbackMsg : String := "生成失败，请重试。"

/-- `err.message || fallback` — JavaScript `||` also replaces an empty
message, since `""` is falsy. `none` models an error without a `message`. -/
def jsOrElse (m : Option String) (fallback : String) : String :=
  match m with
  | none => fallback
  | some s => if s.isEmpty then fallback else s

/-- Failure `setState` of `handleGenerate` (src/App.tsx lines 181-187),
applied to whatever state `prev` holds when the Generation Client rejects. -/
def resolveFailure (errMsg : Option String) (prev : ExtendedAppState) : ExtendedAppState :=
  { prev with
    isGenerating := false
    error := some (jsOrElse errMsg generateFallbackMsg) }

/-- One tick of the progress interval (src/App.tsx lines 77-90). `elapsed` is
`Date.now() - startTime`; the raw percent is clamped to 98 and the message
index to the last message. -/
def progressTick (startTime now : Nat) (s : ExtendedAppState) : ExtendedAppState :=
  let elapsed : Nat := now - startTime
  let rawPercent : ℚ := min ((elapsed : ℚ) / 15000 * 100) 98
  let stepIndex : Nat :=
    min (rawPercent / 100 * (progressMessagesLength : ℚ)).floor.toNat
      (progressMessagesLength - 1)
  { s with progressPercent := rawPercent, progressStep := stepIndex }

/-- A sequence of ticks of one generation run (shared `startTime`). -/
def applyTicks (startTime : Nat) (times : List Nat) (s : ExtendedAppState) : ExtendedAppState :=
  times.foldl (fun st t => progressTick startTime t st) s

/-- The `else` branch of the progress effect (src/App.tsx lines 91-96): when
`isGenerating` is false the interval is cleared and the progress fields reset. -/
def progressReset (s : ExtendedAppState) : ExtendedAppState :=
  { s with progressPercent := 0, progressStep := 0 }

/-- `handleSelectHistoryItem` (src/App.tsx lines 200-209). -/
def handleSelectHistoryItem (item : HistoryItem) (s : ExtendedAppState) : ExtendedAppState :=
  { s with
    originalImage := some item.originalImage
    generatedAvatar := some item.generatedAvatar
    style := item.style
    error := none }

/-- `handleDeleteHistoryItem` (src/App.tsx lines 211-217): keep every entry
whose id differs from the given id. -/
def handleDeleteHistoryItem (delId : String) (s : ExtendedAppState) : ExtendedAppState :=
  { s with history := s.history.filter (fun item => item.id != delId) }

/-- `handleClearHistory` (src/App.tsx lines 219-223), after confirmation. -/
def handleClearHistory (s : ExtendedAppState) : ExtendedAppState :=
  { s with history := [] }

/-- Drag handlers (src/App.tsx lines 128-143): only toggle `isDragging`. -/
def setDragging (b : Bool) (s : ExtendedAppState) : ExtendedAppState :=
  { s with isDragging := b }

/-! ## Generation Client (src/services/geminiService.ts) -/

/-- One part of a Gemini response candidate's content: either inline image
data or text. -/
inductive GenPart where
  | inlineData (data : String)
  | textPart (t : String)
  deriving DecidableEq, Repr

/-- The response-scanning loop of `generateAvatar` (src/services/geminiService.ts
lines 110-118): the first `inlineData` part yields
`data:image/png;base64,<data>`; otherwise no image URL is produced. -/
def extractImageUrl : List GenPart → Option String
  | [] => none
  | .inlineData d :: _ => some ("data:image/png;base64," ++ d)
  | .textPart _ :: rest => extractImageUrl rest

/-- `generateAvatar` (src/services/geminiService.ts): missing API key throws;
otherwise the model call's response parts are scanned and the absence of an
image part throws. The network call itself is opaque; its response is the
`responseParts` argument. -/
def generateAvatar (apiKey : Option String) (responseParts : List GenPart) :
    Except String String :=
  match apiKey with
  | none => .error "API Key is missing. Please ensure process.env.API_KEY is configured."
  | some _ =>
      match extractImageUrl responseParts with
      | some url => .ok url
      | none => .error "The model did not return an image part in the response."

/-! ## Reachable states

Every `setState` call in src/App.tsx, plus the startup history load, as a
step of one inductive reachability predicate. `loadOK` constrains which
persisted lists the Persisted History Store may supply at startup. -/

/-- States reachable from the initial state by the app's own `setState`
updates and a startup load whose parsed list satisfies `loadOK`. -/
inductive ReachableFrom (loadOK : List HistoryItem → Prop) : ExtendedAppState → Prop where
  | init : ReachableFrom loadOK initState
  | load : ∀ parsed s, loadOK parsed → ReachableFrom loadOK s →
      ReachableFrom loadOK (loadHistory parsed s)
  | file : ∀ ft s, ReachableFrom loadOK s → ReachableFrom loadOK (processFile ft s).1
  | fileDone : ∀ url s, ReachableFrom loadOK s → ReachableFrom loadOK (fileReadComplete url s)
  | randomStyle : ∀ k s, ReachableFrom loadOK s → ReachableFrom loadOK (handleRandomStyle k s)
  | styleSelect : ∀ st s, ReachableFrom loadOK s → ReachableFrom loadOK (selectStyle st s)
  | drag : ∀ b s, ReachableFrom loadOK s → ReachableFrom loadOK (setDragging b s)
  | click : ∀ s, ReachableFrom loadOK s → ReachableFrom loadOK (clickGenerate s).1
  | tick : ∀ t0 t s, ReachableFrom loadOK s → ReachableFrom loadOK (progressTick t0 t s)
  | reset : ∀ s, ReachableFrom loadOK s → ReachableFrom loadOK (progressReset s)
  | succeed : ∀ img sty P now s, ReachableFrom loadOK s →
      ReachableFrom loadOK (resolveSuccess img sty P now s)
  | fail : ∀ M s, ReachableFrom loadOK s → ReachableFrom loadOK (resolveFailure M s)
  | selectHist : ∀ item s, ReachableFrom loadOK s →
      ReachableFrom loadOK (handleSelectHistoryItem item s)
  | deleteItem : ∀ delId s, ReachableFrom loadOK s →
      ReachableFrom loadOK (handleDeleteHistoryItem delId s)
  | clearAll : ∀ s, ReachableFrom loadOK s → ReachableFrom loadOK (handleClearHistory s)

/-- Reachable with an arbitrary persisted list at startup: the Persisted
History Store is an external collaborator, so the parsed list is
unconstrained. -/
abbrev Reachable : ExtendedAppState → Prop := ReachableFrom (fun _ => True)

/-- Reachable when the persisted list respects the cap (as every list this
app itself writes does). -/
abbrev ReachableApp : ExtendedAppState → Prop :=
  ReachableFrom (fun parsed => parsed.length ≤ 20)

/-- A concrete history item used in witnesses and counterexamples. -/
def sampleItem (n : Nat) : HistoryItem :=
  { id := toString n
    originalImage := "o"
    generatedAvatar := "g"
    style := .PIXAR
    timestamp := n }

/-- A 21-entry persisted list (one past the cap). -/
def overLongList : List HistoryItem := (List.range 21).map sampleItem

/-! ## Helper lemmas -/

/-- A progress tick touches only the two progress fields. -/
theorem progressTick_preserves (t0 t : Nat) (s : ExtendedAppState) :
    (progressTick t0 t s).originalImage = s.originalImage ∧
    (progressTick t0 t s).generatedAvatar = s.generatedAvatar ∧
    (progressTick t0 t s).isGenerating = s.isGenerating ∧
    (progressTick t0 t s).style = s.style ∧
    (progressTick t0 t s).error = s.error ∧
    (progressTick t0 t s).history = s.history := by
  simp [progressTick]

/-- A run of progress ticks touches only the two progress fields. -/
theorem applyTicks_preserves (t0 : Nat) (ts : List Nat) (s : ExtendedAppState) :
    (applyTicks t0 ts s).originalImage = s.originalImage ∧
    (applyTicks t0 ts s).generatedAvatar = s.generatedAvatar ∧
    (applyTicks t0 ts s).isGenerating = s.isGenerating ∧
    (applyTicks t0 ts s).style = s.style ∧
    (applyTicks t0 ts s).error = s.error ∧
    (applyTicks t0 ts s).history = s.history := by
  induction ts generalizing s with
  | nil => simp [applyTicks]
  | cons t ts ih =>
    have h1 := progressTick_preserves t0 t s
    have h2 := ih (progressTick t0 t s)
    simp only [applyTicks, List.foldl_cons] at *
    exact ⟨h2.1.trans h1.1, h2.2.1.trans h1.2.1, h2.2.2.1.trans h1.2.2.1,
      h2.2.2.2.1.trans h1.2.2.2.1, h2.2.2.2.2.1.trans h1.2.2.2.2.1,
      h2.2.2.2.2.2.trans h1.2.2.2.2.2⟩

/-! ## Claim theorems -/

/-- C7: for every file whose declared media type is not an image type,
ingestion leaves `originalImage`, `generatedAvatar` and every other state
field except `error` unchanged, sets `error` to a non-empty message, and
starts no read. -/
theorem processFile_nonImage_spec (fileType : String) (s : ExtendedAppState)
    (h : jsStartsWith fileType "image/" = false) :
    (processFile fileType s).2 = false ∧
    (processFile fileType s).1.originalImage = s.originalImage ∧
    (processFile fileType s).1.generatedAvatar = s.generatedAvatar ∧
    (processFile fileType s).1.isGenerating = s.isGenerating ∧
    (processFile fileType s).1.style = s.style ∧
    (processFile fileType s).1.isDragging = s.isDragging ∧
    (processFile fileType s).1.progressStep = s.progressStep ∧
    (processFile fileType s).1.progressPercent = s.progressPercent ∧
    (processFile fileType s).1.history = s.history ∧
    ∃ m, (processFile fileType s).1.error = some m ∧ m ≠ "" := by
  have hif : processFile fileType s =
      ({ s with error := some "请上传有效的图片文件。" }, false) := by
    simp [processFile, h]
  rw [hif]
  exact ⟨rfl, rfl, rfl, rfl, rfl, rfl, rfl, rfl, rfl, "请上传有效的图片文件。", rfl, by decide⟩

/-- Witness for C7 at the concrete media type "text/plain". -/
theorem processFile_nonImage_spec_witness :
    (processFile "text/plain" initState).2 = false ∧
    (processFile "text/plain" initState).1.originalImage = initState.originalImage ∧
    (processFile "text/plain" initState).1.generatedAvatar = initState.generatedAvatar ∧
    (processFile "text/plain" initState).1.isGenerating = initState.isGenerating ∧
    (processFile "text/plain" initState).1.style = initState.style ∧
    (processFile "text/plain" initState).1.isDragging = initState.isDragging ∧
    (processFile "text/plain" initState).1.progressStep = initState.progressStep ∧
    (processFile "text/plain" initState).1.progressPercent = initState.progressPercent ∧
    (processFile "text/plain" initState).1.history = initState.history ∧
    ∃ m, (processFile "text/plain" initState).1.error = some m ∧ m ≠ "" :=
  processFile_nonImage_spec "text/plain" initState (by decide)

/-- C8: for every state with `originalImage = none`, dispatching generation
returns the state unchanged and sends no request to the Generation Client. -/
theorem dispatchGenerate_noImage_noop (s : ExtendedAppState)
    (h : s.originalImage = none) :
    dispatchGenerate s = (s, none) := by
  simp [dispatchGenerate, h]

/-- Witness for C8: the initial state has no image, so dispatch is a no-op. -/
theorem dispatchGenerate_noImage_noop_witness :
    dispatchGenerate initState = (initState, none) :=
  dispatchGenerate_noImage_noop initState rfl

/-- C2: for every state with `isGenerating = true`, the generate button is
disabled, so a click changes no state field and dispatches no request. -/
theorem clickGenerate_whileGenerating_noop (s : ExtendedAppState)
    (h : s.isGenerating = true) :
    clickGenerate s = (s, none) := by
  simp [clickGenerate, generateButtonDisabled, h]

/-- Witness for C2 at a concrete in-flight state. -/
theorem clickGenerate_whileGenerating_noop_witness :
    clickGenerate { initState with isGenerating := true } =
      ({ initState with isGenerating := true }, none) :=
  clickGenerate_whileGenerating_noop { initState with isGenerating := true } rfl

/-- C3: for every dispatched generation (source image present), any run of
progress ticks followed by a Generation Client rejection with message `M`
ends with `isGenerating = false`, `generatedAvatar` still cleared from
dispatch, `history` unchanged from its pre-dispatch value, and `error` equal
to `M` when `M` is a non-empty message, or the fixed fallback string when the
failure carries no message. -/
theorem generate_failure_spec (s : ExtendedAppState) (img : String)
    (himg : s.originalImage = some img) (t0 : Nat) (ts : List Nat)
    (M : Option String) :
    (resolveFailure M (applyTicks t0 ts (dispatchGenerate s).1)).isGenerating = false ∧
    (resolveFailure M (applyTicks t0 ts (dispatchGenerate s).1)).generatedAvatar = none ∧
    (resolveFailure M (applyTicks t0 ts (dispatchGenerate s).1)).history = s.history ∧
    (∀ m, M = some m → m ≠ "" →
      (resolveFailure M (applyTicks t0 ts (dispatchGenerate s).1)).error = some m) ∧
    ((M = none ∨ M = some "") →
      (resolveFailure M (applyTicks t0 ts (dispatchGenerate s).1)).error =
        some generateFallbackMsg) := by
  have hpre := applyTicks_preserves t0 ts (dispatchGenerate s).1
  have hd1 : (dispatchGenerate s).1.generatedAvatar = none := by
    simp [dispatchGenerate, himg]
  have hd2 : (dispatchGenerate s).1.history = s.history := by
    simp [dispatchGenerate, himg]
  refine ⟨rfl, ?_, ?_, ?_, ?_⟩
  · show (applyTicks t0 ts (dispatchGenerate s).1).generatedAvatar = none
    exact hpre.2.1.trans hd1
  · show (applyTicks t0 ts (dispatchGenerate s).1).history = s.history
    exact hpre.2.2.2.2.2.trans hd2
  · intro m hm hne
    have hemp : m.isEmpty = false := by
      cases hcase : m.isEmpty with
      | false => rfl
      | true => exact absurd ((String.isEmpty_iff m).mp hcase) hne
    simp [resolveFailure, jsOrElse, hm, hemp]
  · intro hM
    cases hM with
    | inl h0 => simp [resolveFailure, jsOrElse, h0]
    | inr h0 => simp [resolveFailure, jsOrElse, h0, String.isEmpty_iff]

/-- Witness for C3 at a concrete dispatch with message "boom" after one tick. -/
theorem generate_failure_spec_witness :
    (resolveFailure (some "boom") (applyTicks 0 [100]
        (dispatchGenerate { initState with originalImage := some "img" }).1)).isGenerating = false ∧
    (resolveFailure (some "boom") (applyTicks 0 [100]
        (dispatchGenerate { initState with originalImage := some "img" }).1)).generatedAvatar = none ∧
    (resolveFailure (some "boom") (applyTicks 0 [100]
        (dispatchGenerate { initState with originalImage := some "img" }).1)).history =
      ({ initState with originalImage := some "img" } : ExtendedAppState).history ∧
    (∀ m, (some "boom" : Option String) = some m → m ≠ "" →
      (resolveFailure (some "boom") (applyTicks 0 [100]
        (dispatchGenerate { initState with originalImage := some "img" }).1)).error = some m) ∧
    (((some "boom" : Option String) = none ∨ (some "boom" : Option String) = some "") →
      (resolveFailure (some "boom") (applyTicks 0 [100]
        (dispatchGenerate { initState with originalImage := some "img" }).1)).error =
        some generateFallbackMsg) :=
  generate_failure_spec { initState with originalImage := some "img" } "img" rfl 0 [100]
    (some "boom")

/-- C1: for every dispatched generation (source image present), any run of
progress ticks followed by a Generation Client resolution with payload `P`
under the style captured at dispatch ends with `generatedAvatar = P`,
`isGenerating = false`, `history[0]` a new item carrying `P`, the captured
style and the captured original image, and
`history.length = min (previousLength + 1) 20`. -/
theorem generate_success_spec (s : ExtendedAppState) (img P : String)
    (now t0 : Nat) (ts : List Nat) (himg : s.originalImage = some img) :
    (resolveSuccess img s.style P now
      (applyTicks t0 ts (dispatchGenerate s).1)).generatedAvatar = some P ∧
    (resolveSuccess img s.style P now
      (applyTicks t0 ts (dispatchGenerate s).1)).isGenerating = false ∧
    (∃ item, (resolveSuccess img s.style P now
        (applyTicks t0 ts (dispatchGenerate s).1)).history.head? = some item ∧
      item.generatedAvatar = P ∧ item.style = s.style ∧ item.originalImage = img) ∧
    (resolveSuccess img s.style P now
      (applyTicks t0 ts (dispatchGenerate s).1)).history.length =
        min (s.history.length + 1) 20 := by
  have hpre := applyTicks_preserves t0 ts (dispatchGenerate s).1
  have hd : (dispatchGenerate s).1.history = s.history := by
    simp [dispatchGenerate, himg]
  have hhist : (applyTicks t0 ts (dispatchGenerate s).1).history = s.history :=
    hpre.2.2.2.2.2.trans hd
  refine ⟨rfl, rfl, ⟨mkHistoryItem img P s.style now, ?_, rfl, rfl, rfl⟩, ?_⟩
  · rfl
  · show ((mkHistoryItem img P s.style now ::
      (applyTicks t0 ts (dispatchGenerate s).1).history).take 20).length = _
    rw [List.length_take, List.length_cons, hhist, Nat.min_comm]

/-- Witness for C1 at a concrete dispatch resolving with payload "avatar". -/
theorem generate_success_spec_witness :
    (resolveSuccess "img" ({ initState with originalImage := some "img" } :
        ExtendedAppState).style "avatar" 5
      (applyTicks 0 [100]
        (dispatchGenerate { initState with originalImage := some "img" }).1)).generatedAvatar =
      some "avatar" ∧
    (resolveSuccess "img" ({ initState with originalImage := some "img" } :
        ExtendedAppState).style "avatar" 5
      (applyTicks 0 [100]
        (dispatchGenerate { initState with originalImage := some "img" }).1)).isGenerating =
      false ∧
    (∃ item, (resolveSuccess "img" ({ initState with originalImage := some "img" } :
          ExtendedAppState).style "avatar" 5
        (applyTicks 0 [100]
          (dispatchGenerate { initState with originalImage := some "img" }).1)).history.head? =
        some item ∧
      item.generatedAvatar = "avatar" ∧
      item.style = ({ initState with originalImage := some "img" } : ExtendedAppState).style ∧
      item.originalImage = "img") ∧
    (resolveSuccess "img" ({ initState with originalImage := some "img" } :
        ExtendedAppState).style "avatar" 5
      (applyTicks 0 [100]
        (dispatchGenerate { initState with originalImage := some "img" }).1)).history.length =
      min (({ initState with originalImage := some "img" } :
        ExtendedAppState).history.length + 1) 20 :=
  generate_success_spec { initState with originalImage := some "img" } "img" "avatar" 5 0 [100]
    rfl

/-- C5: a progress tick's fraction is monotone in elapsed time, never exceeds
98 (so never reaches 100); leaving the generating state resets it to 0; the
success resolution forces it to exactly 100. -/
theorem progress_spec :
    (∀ (t0 t1 t2 : Nat) (s1 s2 : ExtendedAppState), t1 ≤ t2 →
      (progressTick t0 t1 s1).progressPercent ≤ (progressTick t0 t2 s2).progressPercent) ∧
    (∀ (t0 t : Nat) (s : ExtendedAppState),
      (progressTick t0 t s).progressPercent ≤ 98 ∧
      (progressTick t0 t s).progressPercent < 100) ∧
    (∀ s : ExtendedAppState,
      (progressReset s).progressPercent = 0 ∧ (progressReset s).progressStep = 0) ∧
    (∀ (img P : String) (sty : AvatarStyle) (now : Nat) (prev : ExtendedAppState),
      (resolveSuccess img sty P now prev).progressPercent = 100) := by
  refine ⟨?_, ?_, ?_, ?_⟩
  · intro t0 t1 t2 s1 s2 h
    show min (((t1 - t0 : Nat) : ℚ) / 15000 * 100) 98 ≤
      min (((t2 - t0 : Nat) : ℚ) / 15000 * 100) 98
    have hle : ((t1 - t0 : Nat) : ℚ) ≤ ((t2 - t0 : Nat) : ℚ) := by
      exact_mod_cast Nat.sub_le_sub_right h t0
    gcongr
  · intro t0 t s
    refine ⟨min_le_right _ _, lt_of_le_of_lt (min_le_right _ _) ?_⟩
    norm_num
  · intro s
    exact ⟨rfl, rfl⟩
  · intro img P sty now prev
    rfl

/-- Witness for C5 at concrete tick times 100 and 200 milliseconds. -/
theorem progress_spec_witness :
    (progressTick 0 100 initState).progressPercent ≤
      (progressTick 0 200 initState).progressPercent ∧
    ((progressTick 0 100 initState).progressPercent ≤ 98 ∧
     (progressTick 0 100 initState).progressPercent < 100) ∧
    ((progressReset initState).progressPercent = 0 ∧
     (progressReset initState).progressStep = 0) ∧
    (resolveSuccess "i" AvatarStyle.PIXAR "g" 5 initState).progressPercent = 100 :=
  ⟨progress_spec.1 0 100 200 initState initState (by decide),
   progress_spec.2.1 0 100 initState,
   progress_spec.2.2.1 initState,
   progress_spec.2.2.2 "i" "g" AvatarStyle.PIXAR 5 initState⟩

/-- Every successfully extracted image URL is the png data-URI prefix plus
the part's base64 payload. -/
theorem extractImageUrl_some (parts : List GenPart) (url : String)
    (h : extractImageUrl parts = some url) :
    ∃ d, url = "data:image/png;base64," ++ d := by
  induction parts with
  | nil => simp [extractImageUrl] at h
  | cons p rest ih =>
    cases p with
    | inlineData d =>
      simp only [extractImageUrl, Option.some.injEq] at h
      exact ⟨d, h.symm⟩
    | textPart t => exact ih (by simpa [extractImageUrl] using h)

/-- Appending anything to a string leaves that string as a prefix. -/
theorem jsStartsWith_append (p d : String) : jsStartsWith (p ++ d) p = true := by
  show ((p ++ d).data.take p.data.length == p.data) = true
  rw [String.data_append, List.take_left]
  exact beq_self_eq_true _

/-- C10: whenever `generateAvatar` resolves successfully, the returned
payload begins with the prefix "data:image/png;base64," regardless of the
input payload's declared media type. -/
theorem generateAvatar_png_spec (apiKey : Option String) (parts : List GenPart)
    (url : String) (h : generateAvatar apiKey parts = .ok url) :
    jsStartsWith url "data:image/png;base64," = true ∧
    ∃ rest, url = "data:image/png;base64," ++ rest := by
  have hx : extractImageUrl parts = some url := by
    cases apiKey with
    | none => simp [generateAvatar] at h
    | some k =>
      cases hext : extractImageUrl parts with
      | none => simp [generateAvatar, hext] at h
      | some u =>
        simp only [generateAvatar, hext, Except.ok.injEq] at h
        exact congrArg some h
  obtain ⟨d, hd⟩ := extractImageUrl_some parts url hx
  exact ⟨hd ▸ jsStartsWith_append "data:image/png;base64," d, d, hd⟩

/-- Witness for C10 at a concrete successful response. -/
theorem generateAvatar_png_spec_witness :
    jsStartsWith "data:image/png;base64,QUJD" "data:image/png;base64," = true ∧
    ∃ rest, "data:image/png;base64,QUJD" = "data:image/png;base64," ++ rest :=
  generateAvatar_png_spec (some "key") [.textPart "t", .inlineData "QUJD"]
    "data:image/png;base64,QUJD" (by rfl)

/-- C9: while a generation is outstanding, random style selection is a no-op;
otherwise the candidate list enumerates exactly the styles other than the
current one (each once, seven in all) and the uniformly drawn index `k`
always lands on a style different from the current one. -/
theorem randomStyle_spec (s : ExtendedAppState) (k : Nat) :
    (s.isGenerating = true → handleRandomStyle k s = s) ∧
    (s.isGenerating = false →
      ((allStyles.filter (fun st => st != s.style)).length = 7 ∧
       (allStyles.filter (fun st => st != s.style)).Nodup ∧
       (∀ st, st ∈ allStyles.filter (fun st => st != s.style) ↔ st ≠ s.style)) ∧
      (k < 7 →
        (handleRandomStyle k s).style ≠ s.style ∧
        (allStyles.filter (fun st => st != s.style))[k]? =
          some (handleRandomStyle k s).style)) := by
  constructor
  · intro h
    simp [handleRandomStyle, h]
  · intro hgen
    have hfacts : (allStyles.filter (fun st => st != s.style)).length = 7 ∧
        (allStyles.filter (fun st => st != s.style)).Nodup ∧
        (∀ st, st ∈ allStyles.filter (fun st => st != s.style) ↔ st ≠ s.style) := by
      cases hst : s.style <;> decide
    refine ⟨hfacts, fun hk => ?_⟩
    have hk' : k < (allStyles.filter (fun st => st != s.style)).length := hfacts.1 ▸ hk
    have hget : (allStyles.filter (fun st => st != s.style))[k]? =
        some ((allStyles.filter (fun st => st != s.style))[k]) :=
      List.getElem?_eq_getElem hk'
    have hmem : (allStyles.filter (fun st => st != s.style))[k] ∈
        allStyles.filter (fun st => st != s.style) := List.getElem_mem hk'
    have hne := (hfacts.2.2 _).mp hmem
    have hr : handleRandomStyle k s =
        { s with style := (allStyles.filter (fun st => st != s.style))[k] } := by
      simp [handleRandomStyle, hgen, hget]
    constructor
    · rw [hr]
      exact hne
    · rw [hr]
      exact hget

/-- Witness for C9 at the initial state and index 0. -/
theorem randomStyle_spec_witness :
    (initState.isGenerating = true → handleRandomStyle 0 initState = initState) ∧
    (initState.isGenerating = false →
      ((allStyles.filter (fun st => st != initState.style)).length = 7 ∧
       (allStyles.filter (fun st => st != initState.style)).Nodup ∧
       (∀ st, st ∈ allStyles.filter (fun st => st != initState.style) ↔
         st ≠ initState.style)) ∧
      (0 < 7 →
        (handleRandomStyle 0 initState).style ≠ initState.style ∧
        (allStyles.filter (fun st => st != initState.style))[0]? =
          some (handleRandomStyle 0 initState).style)) :=
  randomStyle_spec initState 0

/-- Ingestion's synchronous phase never touches `history`. -/
theorem processFile_history (ft : String) (s : ExtendedAppState) :
    (processFile ft s).1.history = s.history := by
  unfold processFile
  split <;> rfl

/-- Random style selection never touches `history`. -/
theorem handleRandomStyle_history (k : Nat) (s : ExtendedAppState) :
    (handleRandomStyle k s).history = s.history := by
  by_cases h : s.isGenerating
  · simp [handleRandomStyle, h]
  · simp only [handleRandomStyle, if_neg h]
    cases hk : (allStyles.filter (fun st => st != s.style))[k]? <;> simp [hk]

/-- Explicit style selection never touches `history`. -/
theorem selectStyle_history (st : AvatarStyle) (s : ExtendedAppState) :
    (selectStyle st s).history = s.history := by
  by_cases h : s.isGenerating <;> simp [selectStyle, h]

/-- A generate-button click never touches `history`. -/
theorem clickGenerate_history (s : ExtendedAppState) :
    (clickGenerate s).1.history = s.history := by
  by_cases h : generateButtonDisabled s
  · simp [clickGenerate, h]
  · simp only [clickGenerate, if_neg h]
    cases himg : s.originalImage <;> simp [dispatchGenerate, himg]

/-- Prepending to a full (length-20) history and truncating to the cap keeps
the new item plus all but the last (oldest) previous entry. -/
theorem take_cap_cons (a : HistoryItem) (l : List HistoryItem) (hl : l.length = 20) :
    (a :: l).take 20 = a :: l.dropLast := by
  rw [List.dropLast_eq_take, hl]
  show (a :: l).take (19 + 1) = a :: l.take (20 - 1)
  rw [List.take_succ_cons]

/-- Under unique ids, filtering out one present id removes exactly one entry. -/
theorem filter_ne_id_length (l : List HistoryItem) (delId : String)
    (hnd : (l.map HistoryItem.id).Nodup) (hmem : ∃ x ∈ l, x.id = delId) :
    (l.filter (fun item => item.id != delId)).length + 1 = l.length := by
  induction l with
  | nil => simp at hmem
  | cons a t ih =>
    rw [List.map_cons, List.nodup_cons] at hnd
    by_cases ha : a.id = delId
    · have hkeep : ∀ x ∈ t, (x.id != delId) = true := by
        intro x hx
        have hxid : x.id ≠ delId := by
          intro hEq
          exact hnd.1 (by rw [ha, ← hEq]; exact List.mem_map_of_mem HistoryItem.id hx)
        simpa using hxid
      have hfa : (a.id != delId) = false := by simp [ha]
      have hft : List.filter (fun item => item.id != delId) t = t :=
        List.filter_eq_self.mpr hkeep
      simp [List.filter_cons, hfa, hft]
    · have hfa : (a.id != delId) = true := by simp [ha]
      obtain ⟨x, hx, hxid⟩ := hmem
      rcases List.mem_cons.mp hx with hxa | hxt
      · exact absurd (hxa ▸ hxid) ha
      · have hrec := ih hnd.2 ⟨x, hxt, hxid⟩
        simp only [List.filter_cons, hfa, if_true, List.length_cons]
        omega

/-- C6: under the data model's unique-id invariant, `deleteHistoryItem id`
removes exactly the entry with that id (none when no entry matches), keeps
every other entry, and preserves their relative order. -/
theorem deleteHistoryItem_spec (s : ExtendedAppState) (delId : String)
    (hnd : (s.history.map HistoryItem.id).Nodup) :
    List.Sublist (handleDeleteHistoryItem delId s).history s.history ∧
    (∀ x ∈ (handleDeleteHistoryItem delId s).history, x.id ≠ delId) ∧
    (∀ x ∈ s.history, x.id ≠ delId → x ∈ (handleDeleteHistoryItem delId s).history) ∧
    ((∀ x ∈ s.history, x.id ≠ delId) →
      (handleDeleteHistoryItem delId s).history = s.history) ∧
    ((∃ x ∈ s.history, x.id = delId) →
      (handleDeleteHistoryItem delId s).history.length + 1 = s.history.length) := by
  refine ⟨List.filter_sublist _, ?_, ?_, ?_, ?_⟩
  · intro x hx
    have hbx := List.of_mem_filter hx
    simpa using hbx
  · intro x hx hne
    exact List.mem_filter.mpr ⟨hx, by simpa using hne⟩
  · intro hall
    exact List.filter_eq_self.mpr fun a ha => by simpa using hall a ha
  · intro hmem
    exact filter_ne_id_length s.history delId hnd hmem

/-- Witness for C6: deleting id "1" from a three-item history. -/
theorem deleteHistoryItem_spec_witness :
    List.Sublist (handleDeleteHistoryItem "1"
        { initState with history := [sampleItem 0, sampleItem 1, sampleItem 2] }).history
      ({ initState with history := [sampleItem 0, sampleItem 1, sampleItem 2] } :
        ExtendedAppState).history ∧
    (∀ x ∈ (handleDeleteHistoryItem "1"
        { initState with history := [sampleItem 0, sampleItem 1, sampleItem 2] }).history,
      x.id ≠ "1") ∧
    (∀ x ∈ ({ initState with history := [sampleItem 0, sampleItem 1, sampleItem 2] } :
        ExtendedAppState).history,
      x.id ≠ "1" → x ∈ (handleDeleteHistoryItem "1"
        { initState with history := [sampleItem 0, sampleItem 1, sampleItem 2] }).history) ∧
    ((∀ x ∈ ({ initState with history := [sampleItem 0, sampleItem 1, sampleItem 2] } :
        ExtendedAppState).history, x.id ≠ "1") →
      (handleDeleteHistoryItem "1"
        { initState with history := [sampleItem 0, sampleItem 1, sampleItem 2] }).history =
      ({ initState with history := [sampleItem 0, sampleItem 1, sampleItem 2] } :
        ExtendedAppState).history) ∧
    ((∃ x ∈ ({ initState with history := [sampleItem 0, sampleItem 1, sampleItem 2] } :
        ExtendedAppState).history, x.id = "1") →
      (handleDeleteHistoryItem "1"
        { initState with history := [sampleItem 0, sampleItem 1, sampleItem 2] }).history.length
        + 1 =
      ({ initState with history := [sampleItem 0, sampleItem 1, sampleItem 2] } :
        ExtendedAppState).history.length) :=
  deleteHistoryItem_spec
    { initState with history := [sampleItem 0, sampleItem 1, sampleItem 2] } "1" (by decide)

/-- C4 as stated is false: the startup load copies the persisted list
verbatim, so a 21-entry persisted list yields a reachable state whose
history exceeds the cap. -/
theorem history_cap_counterexample :
    Reachable (loadHistory overLongList initState) ∧
    (loadHistory overLongList initState).history.length = 21 :=
  ⟨ReachableFrom.load overLongList initState trivial ReachableFrom.init, by decide⟩

/-- C4 amended: for every state reachable via the app's own mutations — with
the startup load restricted to persisted lists within the cap, since the load
performs no truncation — `history.length` never exceeds 20, and prepending to
a length-20 history evicts exactly the last (oldest) entry. -/
theorem history_cap_invariant (s : ExtendedAppState) (h : ReachableApp s) :
    s.history.length ≤ 20 ∧
    (∀ (img P : String) (sty : AvatarStyle) (now : Nat) (prev : ExtendedAppState),
      prev.history.length = 20 →
      (resolveSuccess img sty P now prev).history =
        mkHistoryItem img P sty now :: prev.history.dropLast) := by
  constructor
  · induction h with
    | init => simp [initState]
    | load parsed s hOK hs ih => simpa [loadHistory] using hOK
    | file ft s hs ih => rw [processFile_history]; exact ih
    | fileDone url s hs ih => simpa [fileReadComplete] using ih
    | randomStyle k s hs ih => rw [handleRandomStyle_history]; exact ih
    | styleSelect st s hs ih => rw [selectStyle_history]; exact ih
    | drag b s hs ih => simpa [setDragging] using ih
    | click s hs ih => rw [clickGenerate_history]; exact ih
    | tick t0 t s hs ih => simpa [progressTick] using ih
    | reset s hs ih => simpa [progressReset] using ih
    | succeed img sty P now s hs ih =>
        exact List.length_take_le 20 _
    | fail M s hs ih => simpa [resolveFailure] using ih
    | selectHist item s hs ih => simpa [handleSelectHistoryItem] using ih
    | deleteItem delId s hs ih =>
        exact le_trans (List.length_filter_le _ _) ih
    | clearAll s hs ih => simp [handleClearHistory]
  · intro img P sty now prev hlen
    show (mkHistoryItem img P sty now :: prev.history).take 20 = _
    exact take_cap_cons _ _ hlen

/-- Witness for the amended C4 at the initial state. -/
theorem history_cap_invariant_witness :
    initState.history.length ≤ 20 ∧
    (∀ (img P : String) (sty : AvatarStyle) (now : Nat) (prev : ExtendedAppState),
      prev.history.length = 20 →
      (resolveSuccess img sty P now prev).history =
        mkHistoryItem img P sty now :: prev.history.dropLast) :=
  history_cap_invariant initState ReachableFrom.init

end CartoonAvatar
